import Mathlib

/-!
Verification of the TOTO lottery simulator (toto-lottery-simulator.py).

Shallow embedding conventions:
* Python integers are modelled as `ℤ` (player numbers may be arbitrary
  integers); counters and indices are `ℕ`.
* The random source (`random.sample` / `random.choice`) is modelled as an
  explicit entropy stream `rng : ℕ → ℕ` together with a position counter:
  each elementary random selection consumes one stream value and picks an
  index into the current candidate pool (`value % pool.length`), which is
  exactly the contract of uniform selection without replacement.  One call
  to `generate_winning_numbers` consumes 7 stream positions (6 for
  `random.sample(range(1,50), 6)`, 1 for `random.choice(remaining)`).
* Wall-clock readings (`datetime.now()` in `play_toto`, `time.time()` in
  `simulate_until_jackpot`) are modelled as explicit inputs, since the
  code has no other access to time.
* Progress printing inside `simulate_until_jackpot` (lines 100-104 and
  117-120 of the source) only writes to the console and touches no state
  used by the returned summary; it is omitted from the embedding.
-/

/-- Result dictionary built by `check_prize` (source lines 25-31).
`matching_numbers` is `list(set(player) & set(winning))` in Python; the
iteration order of a Python set is unspecified, so it is modelled as the
underlying finite set. -/
structure CheckResult where
  prize : String
  matching_numbers : Finset ℤ
  matches_count : ℕ
  has_additional : Bool
  is_jackpot : Bool
deriving DecidableEq

/-- The prize-assignment decision chain of `check_prize`
(source lines 33-44), a function of the match count and the
additional-number flag only. -/
def prize_for (matches_count : ℕ) (has_additional : Bool) : String :=
  if matches_count = 6 then "Group 1 Prize"
  else if matches_count = 5 ∧ has_additional = true then "Group 2 Prize"
  else if matches_count = 5 then "Group 3 Prize"
  else if matches_count = 4 ∧ has_additional = true then "Group 4 Prize"
  else if matches_count = 4 then "Group 5 Prize"
  else if matches_count = 3 ∧ has_additional = true then "Group 6 Prize"
  else "No prize"

/-- `TOTOLottery.check_prize` (source lines 19-46):
`matches = len(set(player_numbers) & set(winning_numbers))`,
`has_additional = additional_number in player_numbers`,
`matching_numbers = list(set(player_numbers) & set(winning_numbers))`,
`is_jackpot = (matches == 6)`, and the prize string from the
if/elif chain (factored out as `prize_for`). -/
def check_prize (player_numbers winning_numbers : List ℤ)
    (additional_number : ℤ) : CheckResult :=
  let matches_count := (player_numbers.toFinset ∩ winning_numbers.toFinset).card
  let has_additional := decide (additional_number ∈ player_numbers)
  { prize := prize_for matches_count has_additional
    matching_numbers := player_numbers.toFinset ∩ winning_numbers.toFinset
    matches_count := matches_count
    has_additional := has_additional
    is_jackpot := decide (matches_count = 6) }

/-- Modelled from the spec: the closed tier enumeration of section 3. -/
inductive Tier where
  | JACKPOT
  | TIER2
  | TIER3
  | TIER4
  | TIER5
  | TIER6
  | NONE
deriving DecidableEq

/-- Modelled from the spec: the ordered decision list of section 4.2,
first match wins. -/
def tierSpec (matchCount : ℕ) (supplementaryMatched : Bool) : Tier :=
  if matchCount = 6 then Tier.JACKPOT
  else if matchCount = 5 ∧ supplementaryMatched = true then Tier.TIER2
  else if matchCount = 5 then Tier.TIER3
  else if matchCount = 4 ∧ supplementaryMatched = true then Tier.TIER4
  else if matchCount = 4 then Tier.TIER5
  else if matchCount = 3 ∧ supplementaryMatched = true then Tier.TIER6
  else Tier.NONE

/-- Modelled from the spec: the correspondence between the spec's tier
names and the prize-group strings used by the code ("Group 1" for the
jackpot through "Group 6", and "No prize" for NONE). -/
def tierString : Tier → String
  | Tier.JACKPOT => "Group 1 Prize"
  | Tier.TIER2 => "Group 2 Prize"
  | Tier.TIER3 => "Group 3 Prize"
  | Tier.TIER4 => "Group 4 Prize"
  | Tier.TIER5 => "Group 5 Prize"
  | Tier.TIER6 => "Group 6 Prize"
  | Tier.NONE => "No prize"

/-- Inner helper `combinations(n, r)` of `calculate_odds`
(source lines 137-139): exact integer factorial quotient. -/
def combinations (n r : ℕ) : ℕ :=
  n.factorial / (r.factorial * (n - r).factorial)

/-- `TOTOLottery.calculate_odds` (source lines 135-140). -/
def calculate_odds : ℕ := combinations 49 6

/-- `TOTOLottery.calculate_years` (source lines 142-145):
`round(draws / 104, 1)`, modelled over `ℚ` with round-to-nearest on the
first decimal. -/
def calculate_years (draws : ℕ) : ℚ :=
  ((round ((draws : ℚ) / 104 * 10) : ℤ) : ℚ) / 10

/-- The `prize_counts` dictionary as initialized in
`simulate_until_jackpot` (source lines 88-96), as an association list in
insertion order. -/
def init_prize_counts : List (String × ℕ) :=
  [("Group 1 Prize", 0), ("Group 2 Prize", 0), ("Group 3 Prize", 0),
   ("Group 4 Prize", 0), ("Group 5 Prize", 0), ("Group 6 Prize", 0),
   ("No prize", 0)]

/-- One loop-body tally update of `simulate_until_jackpot`
(source lines 110-115): `prize_counts[prize_key] += 1` when `prize_key`
is a key of the dictionary, and no tally change otherwise (the unknown
category is only printed). -/
def incr_prize (counts : List (String × ℕ)) (key : String) :
    List (String × ℕ) :=
  counts.map fun p => if p.1 = key then (p.1, p.2 + 1) else p

/-- Total of all tally entries. -/
def sumCounts (counts : List (String × ℕ)) : ℕ :=
  (counts.map Prod.snd).sum

/-- Model of `random.sample(pool, k)`: `k` successive uniform selections
without replacement, each driven by one entropy-stream value used as an
index into the remaining pool.  Returns `[]` early only if the pool runs
empty (which never happens for the 49-element pool used here). -/
def sampleFrom (rng : ℕ → ℕ) : List ℤ → ℕ → ℕ → List ℤ
  | _, 0, _ => []
  | pool, Nat.succ k, pos =>
    if pool = [] then []
    else
      let x := pool.getD (rng pos % pool.length) 0
      x :: sampleFrom rng (pool.erase x) k (pos + 1)

/-- `list(self.number_range)` with `number_range = range(1, 50)`
(source line 8): the integers 1..49. -/
def number_range : List ℤ := List.map (fun n : ℕ => (n : ℤ)) (List.range' 1 49)

/-- `TOTOLottery.generate_winning_numbers` (source lines 12-17):
sample 6 numbers from 1..49 and sort them ascending; compute the
remaining pool (`set(number_range) - set(main_numbers)`, modelled as a
filter of the range, which has the same members); choose one element of
the remainder uniformly as the additional number. -/
def generate_winning_numbers (rng : ℕ → ℕ) (pos : ℕ) : List ℤ × ℤ :=
  let main_numbers :=
    List.insertionSort (fun x y => x ≤ y) (sampleFrom rng number_range 6 pos)
  let remaining_numbers := number_range.filter fun x => decide (x ∉ main_numbers)
  let additional :=
    remaining_numbers.getD (rng (pos + 6) % remaining_numbers.length) 0
  (main_numbers, additional)

/-- Result dictionary of `play_toto` (source lines 77-83). -/
structure PlayResult where
  draw_date : String
  player_numbers : List ℤ
  winning_numbers : List ℤ
  additional_number : ℤ
  result : CheckResult
deriving DecidableEq

/-- `TOTOLottery.play_toto` (source lines 72-83).  `now` is the
wall-clock string `datetime.now().strftime(...)`, an explicit input in
the embedding. -/
def play_toto (now : String) (player_numbers : List ℤ) (rng : ℕ → ℕ) :
    PlayResult :=
  let w := (generate_winning_numbers rng 0).1
  let a := (generate_winning_numbers rng 0).2
  { draw_date := now
    player_numbers := List.insertionSort (fun x y => x ≤ y) player_numbers
    winning_numbers := w
    additional_number := a
    result := check_prize player_numbers w a }

/-- The classification computed by the `k`-th loop iteration (0-based) of
`simulate_until_jackpot` for a given player and entropy stream: iteration
`k` consumes stream positions `7*k .. 7*k+6`. -/
def trial (player : List ℤ) (rng : ℕ → ℕ) (k : ℕ) : CheckResult :=
  check_prize player (generate_winning_numbers rng (7 * k)).1
    (generate_winning_numbers rng (7 * k)).2

/-- The `for draws in range(1, max_draws + 1)` loop of
`simulate_until_jackpot` (source lines 106-124), as structural recursion
on the number of remaining iterations.  `d` is the number of draws already
performed (the Python `draws` variable, 0 before the loop), `pos` the
current entropy-stream position.  Returns (final draws, jackpot flag,
final tally). -/
def simulate_from (player : List ℤ) (rng : ℕ → ℕ) :
    ℕ → List (String × ℕ) → ℕ → ℕ → ℕ × Bool × List (String × ℕ)
  | _, counts, d, 0 => (d, false, counts)
  | pos, counts, d, Nat.succ r =>
    let w := (generate_winning_numbers rng pos).1
    let a := (generate_winning_numbers rng pos).2
    let result := check_prize player w a
    let counts2 := incr_prize counts result.prize
    if result.is_jackpot = true then (d + 1, true, counts2)
    else simulate_from player rng (pos + 7) counts2 (d + 1) r

/-- The statistics dictionary returned by `simulate_until_jackpot`
(source lines 126-133). -/
structure SimSummary where
  draws : ℕ
  jackpot_achieved : Bool
  prize_counts : List (String × ℕ)
  simulation_time : ℚ
  theoretical_odds : ℕ
  years_equivalent : ℚ
deriving DecidableEq

/-- `TOTOLottery.simulate_until_jackpot` (source lines 85-133).
`max_draws` is a Python int (default 1000000), so it is modelled as `ℤ`;
`range(1, max_draws + 1)` performs `max(max_draws, 0)` iterations, i.e.
`max_draws.toNat`.  The function performs no validation of `max_draws`:
there is no raise statement anywhere in it.  `t_start` and `t_end` are
the two `time.time()` readings, explicit inputs in the embedding. -/
def simulate_until_jackpot (player : List ℤ) (max_draws : ℤ)
    (rng : ℕ → ℕ) (t_start t_end : ℚ) : SimSummary :=
  let res := simulate_from player rng 0 init_prize_counts 0 max_draws.toNat
  { draws := res.1
    jackpot_achieved := res.2.1
    prize_counts := res.2.2
    simulation_time := t_end - t_start
    theoretical_odds := calculate_odds
    years_equivalent := calculate_years res.1 }

/-- The NumberSet invariant of section 3 of the spec: exactly 6 distinct
integers in [1,49], sorted ascending. -/
def NumberSetInv (l : List ℤ) : Prop :=
  l.length = 6 ∧ l.Nodup ∧ l.Sorted (fun x y => x ≤ y) ∧
    ∀ x ∈ l, 1 ≤ x ∧ x ≤ 49

/-- Every string produced by the prize decision chain is one of the seven
keys of the initialized tally. -/
lemma prize_for_mem (m : ℕ) (s : Bool) :
    prize_for m s ∈ init_prize_counts.map Prod.fst := by
  unfold prize_for init_prize_counts
  split_ifs <;> simp

/-- Incrementing a tally entry leaves the key list unchanged. -/
lemma keys_incr_prize (counts : List (String × ℕ)) (key : String) :
    (incr_prize counts key).map Prod.fst = counts.map Prod.fst := by
  induction counts with
  | nil => rfl
  | cons p rest ih =>
    simp only [incr_prize, List.map_cons] at ih ⊢
    by_cases h : p.1 = key <;> simp [h, ih]

/-- Incrementing a key that is absent from the tally changes nothing. -/
lemma incr_prize_of_not_mem {counts : List (String × ℕ)} {key : String}
    (h : key ∉ counts.map Prod.fst) : incr_prize counts key = counts := by
  induction counts with
  | nil => rfl
  | cons p rest ih =>
    simp only [List.map_cons, List.mem_cons, not_or] at h
    have h1 : p.1 ≠ key := fun hk => h.1 hk.symm
    simp only [incr_prize, List.map_cons, if_neg h1] at ih ⊢
    rw [ih h.2]

/-- Incrementing a present key (in a duplicate-free tally) adds exactly one
to the total count. -/
lemma sumCounts_incr_prize (counts : List (String × ℕ)) (key : String)
    (hn : (counts.map Prod.fst).Nodup) (hk : key ∈ counts.map Prod.fst) :
    sumCounts (incr_prize counts key) = sumCounts counts + 1 := by
  induction counts with
  | nil => simp at hk
  | cons p rest ih =>
    rcases p with ⟨k0, v0⟩
    simp only [List.map_cons, List.nodup_cons, List.mem_cons] at hn hk
    have hcons : ∀ key, incr_prize ((k0, v0) :: rest) key =
        (if k0 = key then (k0, v0 + 1) else (k0, v0)) :: incr_prize rest key :=
      fun _ => rfl
    by_cases h : k0 = key
    · subst h
      have hrest : incr_prize rest k0 = rest := incr_prize_of_not_mem hn.1
      rw [hcons, if_pos rfl, hrest]
      simp [sumCounts]
      omega
    · rcases hk with hk | hk
      · exact absurd hk.symm h
      · have := ih hn.2 hk
        rw [hcons, if_neg h]
        simp [sumCounts] at this ⊢
        omega

/-- Closed form of the theoretical odds computation. -/
lemma calculate_odds_val : calculate_odds = 13983816 := by decide

/-- C1: check_prize assigns the prize tier as a total deterministic
function of (matchCount, supplementaryMatched) alone, following the
ordered decision list of section 4.2, first match wins: 6 matches give
Group 1 (JACKPOT) regardless of the supplementary flag, 5 with/without
supplementary give Group 2/Group 3, 4 with/without give Group 4/Group 5,
3 with supplementary gives Group 6, and everything else gives No prize. -/
theorem claim_C1_tier_assignment :
    (∀ (p w : List ℤ) (a : ℤ),
      (check_prize p w a).prize =
        prize_for (check_prize p w a).matches_count
          (check_prize p w a).has_additional) ∧
    ∀ m : ℕ, m ≤ 6 → ∀ s : Bool, prize_for m s = tierString (tierSpec m s) := by
  constructor
  · intro p w a
    rfl
  · intro m hm s
    interval_cases m <;> cases s <;> decide

/-- Witness for C1 at the pair (5, true): Group 2. -/
theorem claim_C1_tier_assignment_witness :
    prize_for 5 true = tierString (tierSpec 5 true) ∧
    prize_for 5 true = "Group 2 Prize" :=
  ⟨claim_C1_tier_assignment.2 5 (by decide) true, by decide⟩

/-- C8: calculate_odds returns exactly the integer 13983816 = C(49,6),
computed by exact integer factorial arithmetic; it takes no inputs and
reads no state, so the value is the same at every invocation. -/
theorem claim_C8_odds : calculate_odds = 13983816 := calculate_odds_val

/-- C9: for every input (no invariant needed), the prize string computed
by check_prize is one of the seven keys the tally is initialized with, so
the defensive unknown-category branch of simulate_until_jackpot is
unreachable and each trial adds exactly one to the total tally count. -/
theorem claim_C9_closed_tiers :
    ∀ (p w : List ℤ) (a : ℤ),
      (check_prize p w a).prize ∈ init_prize_counts.map Prod.fst ∧
      ∀ counts : List (String × ℕ),
        counts.map Prod.fst = init_prize_counts.map Prod.fst →
        sumCounts (incr_prize counts (check_prize p w a).prize) =
          sumCounts counts + 1 := by
  intro p w a
  refine ⟨prize_for_mem _ _, ?_⟩
  intro counts hc
  refine sumCounts_incr_prize _ _ ?_ ?_
  · rw [hc]
    decide
  · rw [hc]
    exact prize_for_mem _ _

/-- Witness for C9: incrementing the freshly initialized tally with the
prize of a concrete trial adds exactly one to the total. -/
theorem claim_C9_closed_tiers_witness :
    sumCounts (incr_prize init_prize_counts
      (check_prize [1, 2, 3, 4, 5, 6] [4, 5, 6, 7, 8, 9] 1).prize) =
    sumCounts init_prize_counts + 1 :=
  (claim_C9_closed_tiers [1, 2, 3, 4, 5, 6] [4, 5, 6, 7, 8, 9] 1).2
    init_prize_counts rfl

/-- C10: check_prize is total over arbitrary integer lists — it performs
no validation, silently computing set intersections on whatever it is
given; in particular on a list with the wrong length, duplicates, and
out-of-range values it still returns an ordinary classification. -/
theorem claim_C10_total_no_validation :
    (∀ (p w : List ℤ) (a : ℤ),
      (check_prize p w a).matches_count = (p.toFinset ∩ w.toFinset).card ∧
      (check_prize p w a).has_additional = decide (a ∈ p) ∧
      (check_prize p w a).matching_numbers = p.toFinset ∩ w.toFinset ∧
      (check_prize p w a).is_jackpot =
        decide ((p.toFinset ∩ w.toFinset).card = 6) ∧
      (check_prize p w a).prize ∈ init_prize_counts.map Prod.fst) ∧
    check_prize [1, 1, 1, 60, -5] [1, 2, 3, 4, 5, 6] 1 =
      { prize := "No prize", matching_numbers := {1}, matches_count := 1,
        has_additional := true, is_jackpot := false } := by
  constructor
  · intro p w a
    exact ⟨rfl, rfl, rfl, rfl, prize_for_mem _ _⟩
  · decide

/-- C4: under the NumberSet invariant on the player's numbers,
check_prize reports the exact intersection cardinality (hence at most 6),
flags the supplementary match exactly when the additional number is among
the player's numbers, and returns the intersection as the matching set. -/
theorem claim_C4_match_counting :
    ∀ (p w : List ℤ) (a : ℤ), NumberSetInv p →
      (check_prize p w a).matches_count = (p.toFinset ∩ w.toFinset).card ∧
      (check_prize p w a).matches_count ≤ 6 ∧
      ((check_prize p w a).has_additional = true ↔ a ∈ p) ∧
      (check_prize p w a).matching_numbers = p.toFinset ∩ w.toFinset := by
  intro p w a hp
  refine ⟨rfl, ?_, ?_, rfl⟩
  · have h1 : (p.toFinset ∩ w.toFinset).card ≤ p.toFinset.card :=
      Finset.card_le_card Finset.inter_subset_left
    have h2 : p.toFinset.card ≤ p.length := p.toFinset_card_le
    calc (check_prize p w a).matches_count
        = (p.toFinset ∩ w.toFinset).card := rfl
      _ ≤ p.length := le_trans h1 h2
      _ = 6 := hp.1
  · show decide (a ∈ p) = true ↔ a ∈ p
    exact decide_eq_true_iff

/-- Witness for C4 on the spec's section 8 scenario: player
[1,2,3,4,5,6] against primary [1,2,3,9,10,11] with additional 4. -/
theorem claim_C4_match_counting_witness :
    (check_prize [1, 2, 3, 4, 5, 6] [1, 2, 3, 9, 10, 11] 4).matches_count ≤ 6 ∧
    ((check_prize [1, 2, 3, 4, 5, 6] [1, 2, 3, 9, 10, 11] 4).has_additional = true ↔
      (4 : ℤ) ∈ ([1, 2, 3, 4, 5, 6] : List ℤ)) :=
  ⟨(claim_C4_match_counting [1, 2, 3, 4, 5, 6] [1, 2, 3, 9, 10, 11] 4
      ⟨by decide, by decide, by decide, by decide⟩).2.1,
   (claim_C4_match_counting [1, 2, 3, 4, 5, 6] [1, 2, 3, 9, 10, 11] 4
      ⟨by decide, by decide, by decide, by decide⟩).2.2.1⟩

/-- Reading a tally-pool element at a valid index yields a pool member. -/
lemma getD_mem {l : List ℤ} {i : ℕ} (h : i < l.length) (d : ℤ) :
    l.getD i d ∈ l := by
  rw [List.getD_eq_getElem l d h]
  exact List.getElem_mem h

/-- Every sampled value comes from the pool. -/
lemma sampleFrom_subset (rng : ℕ → ℕ) :
    ∀ (k : ℕ) (pool : List ℤ) (pos : ℕ) (x : ℤ),
      x ∈ sampleFrom rng pool k pos → x ∈ pool := by
  intro k
  induction k with
  | zero => intro pool pos x hx; simp [sampleFrom] at hx
  | succ k ih =>
    intro pool pos x hx
    rw [sampleFrom] at hx
    split at hx
    · simp at hx
    · rcases List.mem_cons.mp hx with hx | hx
      · subst hx
        have hlen : 0 < pool.length := List.length_pos.mpr (by assumption)
        exact getD_mem (Nat.mod_lt _ hlen) 0
      · exact List.erase_subset _ _ (ih _ _ _ hx)

/-- Sampling without replacement from a duplicate-free pool yields a
duplicate-free result. -/
lemma sampleFrom_nodup (rng : ℕ → ℕ) :
    ∀ (k : ℕ) (pool : List ℤ) (pos : ℕ), pool.Nodup →
      (sampleFrom rng pool k pos).Nodup := by
  intro k
  induction k with
  | zero => intro pool pos _; simp [sampleFrom]
  | succ k ih =>
    intro pool pos hpool
    rw [sampleFrom]
    split
    · simp
    · refine List.nodup_cons.mpr ⟨?_, ih _ _ (hpool.erase _)⟩
      intro hmem
      exact hpool.not_mem_erase (sampleFrom_subset rng _ _ _ _ hmem)

/-- Sampling k values from a pool of at least k elements yields exactly
k values. -/
lemma sampleFrom_length (rng : ℕ → ℕ) :
    ∀ (k : ℕ) (pool : List ℤ) (pos : ℕ), k ≤ pool.length →
      (sampleFrom rng pool k pos).length = k := by
  intro k
  induction k with
  | zero => intro pool pos _; simp [sampleFrom]
  | succ k ih =>
    intro pool pos hk
    rw [sampleFrom]
    have hne : pool ≠ [] := by
      intro h
      rw [h] at hk
      simp at hk
    rw [if_neg hne]
    have hlen : 0 < pool.length := List.length_pos.mpr hne
    have hx : pool.getD (rng pos % pool.length) 0 ∈ pool :=
      getD_mem (Nat.mod_lt _ hlen) 0
    have herase : (pool.erase (pool.getD (rng pos % pool.length) 0)).length + 1 =
        pool.length := List.length_erase_add_one hx
    simp only [List.length_cons]
    rw [ih _ _ (by omega)]

/-- Membership in the 1..49 pool. -/
lemma mem_number_range {x : ℤ} : x ∈ number_range ↔ 1 ≤ x ∧ x ≤ 49 := by
  simp only [number_range, List.mem_map, List.mem_range'_1]
  constructor
  · rintro ⟨n, ⟨h1, h2⟩, rfl⟩
    omega
  · intro ⟨h1, h2⟩
    exact ⟨x.toNat, ⟨by omega, by omega⟩, by omega⟩

/-- After removing the 6 main numbers, the remaining candidate pool is
never empty (it has 49 - 6 = 43 elements). -/
lemma remaining_nonempty (main : List ℤ) (hlen : main.length = 6) :
    0 < (number_range.filter fun x => decide (x ∉ main)).length := by
  rcases Nat.eq_zero_or_pos
      (number_range.filter fun x => decide (x ∉ main)).length with h | h
  · exfalso
    have hnil : (number_range.filter fun x => decide (x ∉ main)) = [] :=
      List.length_eq_zero.mp h
    have hall := List.filter_eq_nil_iff.mp hnil
    have hsub : number_range.toFinset ⊆ main.toFinset := by
      intro x hx
      rw [List.mem_toFinset] at hx ⊢
      have hx2 := hall x hx
      simp at hx2
      exact hx2
    have h49 : number_range.toFinset.card = 49 := by decide
    have hge : (49 : ℕ) ≤ main.toFinset.card := h49 ▸ Finset.card_le_card hsub
    have hle : main.toFinset.card ≤ main.length := main.toFinset_card_le
    omega
  · exact h

/-- C2: every draw produced by generate_winning_numbers satisfies the
Draw invariant: the primary numbers are a sorted-ascending list of
exactly 6 distinct integers in [1,49], and the additional number is in
[1,49] and is not one of the 6 primary numbers. -/
theorem claim_C2_draw_invariant :
    ∀ (rng : ℕ → ℕ) (pos : ℕ),
      (generate_winning_numbers rng pos).1.length = 6 ∧
      (generate_winning_numbers rng pos).1.Nodup ∧
      List.Sorted (fun x y => x ≤ y) (generate_winning_numbers rng pos).1 ∧
      (∀ x ∈ (generate_winning_numbers rng pos).1, 1 ≤ x ∧ x ≤ 49) ∧
      (1 ≤ (generate_winning_numbers rng pos).2 ∧
        (generate_winning_numbers rng pos).2 ≤ 49) ∧
      (generate_winning_numbers rng pos).2 ∉ (generate_winning_numbers rng pos).1 := by
  intro rng pos
  have hfst : (generate_winning_numbers rng pos).1 =
      List.insertionSort (fun x y => x ≤ y) (sampleFrom rng number_range 6 pos) :=
    rfl
  have hlen49 : number_range.length = 49 := by decide
  have hnodup49 : number_range.Nodup := by decide
  have hslen : (sampleFrom rng number_range 6 pos).length = 6 :=
    sampleFrom_length rng 6 number_range pos (by omega)
  have hperm :=
    List.perm_insertionSort (fun x y => x ≤ y) (sampleFrom rng number_range 6 pos)
  have hmlen : (generate_winning_numbers rng pos).1.length = 6 := by
    rw [hfst, hperm.length_eq, hslen]
  have hmnodup : (generate_winning_numbers rng pos).1.Nodup := by
    rw [hfst]
    exact hperm.nodup_iff.mpr (sampleFrom_nodup rng 6 number_range pos hnodup49)
  have hsorted : List.Sorted (fun x y => x ≤ y) (generate_winning_numbers rng pos).1 := by
    rw [hfst]
    exact List.sorted_insertionSort _ _
  have hmem : ∀ x ∈ (generate_winning_numbers rng pos).1, 1 ≤ x ∧ x ≤ 49 := by
    intro x hx
    rw [hfst] at hx
    exact mem_number_range.mp
      (sampleFrom_subset rng 6 number_range pos x (hperm.mem_iff.mp hx))
  have hremlen : 0 <
      (number_range.filter fun x =>
        decide (x ∉ (generate_winning_numbers rng pos).1)).length :=
    remaining_nonempty _ hmlen
  have hsnd : (generate_winning_numbers rng pos).2 =
      (number_range.filter fun x =>
        decide (x ∉ (generate_winning_numbers rng pos).1)).getD
        (rng (pos + 6) %
          (number_range.filter fun x =>
            decide (x ∉ (generate_winning_numbers rng pos).1)).length) 0 := rfl
  have haddmem : (generate_winning_numbers rng pos).2 ∈
      number_range.filter fun x =>
        decide (x ∉ (generate_winning_numbers rng pos).1) := by
    rw [hsnd]
    exact getD_mem (Nat.mod_lt _ hremlen) 0
  rw [List.mem_filter] at haddmem
  have haddrange := mem_number_range.mp haddmem.1
  have haddnotmem : (generate_winning_numbers rng pos).2 ∉
      (generate_winning_numbers rng pos).1 := by
    have hd := haddmem.2
    simp at hd
    exact hd
  exact ⟨hmlen, hmnodup, hsorted, hmem, haddrange, haddnotmem⟩

/-- Witness for C2 at the all-zero entropy stream: the draw is
([1,2,3,4,5,6], 7), 3 is a primary number and lies in [1,49]. -/
theorem claim_C2_draw_invariant_witness :
    (generate_winning_numbers (fun _ => 0) 0).1.length = 6 ∧
    (1 : ℤ) ≤ 3 ∧ (3 : ℤ) ≤ 49 :=
  ⟨(claim_C2_draw_invariant (fun _ => 0) 0).1,
   (claim_C2_draw_invariant (fun _ => 0) 0).2.2.2.1 3 (by decide)⟩

/-- Unfolding of one loop iteration of `simulate_from`, phrased through
`trial`. -/
lemma simulate_from_succ (player : List ℤ) (rng : ℕ → ℕ) (d r : ℕ)
    (counts : List (String × ℕ)) :
    simulate_from player rng (7 * d) counts d (Nat.succ r) =
      if (trial player rng d).is_jackpot = true
      then (d + 1, true, incr_prize counts (trial player rng d).prize)
      else simulate_from player rng (7 * d + 7)
        (incr_prize counts (trial player rng d).prize) (d + 1) r := rfl

/-- Main loop invariant of `simulate_until_jackpot`: starting at draw
count `d` with entropy position `7*d` and a tally carrying the seven
initialized keys, the loop adds one tally unit per executed draw, never
exceeds the remaining budget, exhausts the budget exactly when no jackpot
occurs, and stops exactly at the first jackpot trial. -/
lemma simulate_from_spec (player : List ℤ) (rng : ℕ → ℕ) :
    ∀ (r d : ℕ) (counts : List (String × ℕ)) (D : ℕ) (j : Bool)
      (C : List (String × ℕ)),
      counts.map Prod.fst = init_prize_counts.map Prod.fst →
      simulate_from player rng (7 * d) counts d r = (D, j, C) →
      sumCounts C = sumCounts counts + (D - d) ∧
      d ≤ D ∧ D ≤ d + r ∧
      C.map Prod.fst = init_prize_counts.map Prod.fst ∧
      (j = false → D = d + r) ∧
      (j = true → d < D ∧ (trial player rng (D - 1)).is_jackpot = true) ∧
      (∀ k, d ≤ k → k + 1 < D → (trial player rng k).is_jackpot = false) ∧
      (j = false → ∀ k, d ≤ k → k < D → (trial player rng k).is_jackpot = false) := by
  intro r
  induction r with
  | zero =>
    intro d counts D j C hkeys heq
    have heq2 : ((d, false, counts) : ℕ × Bool × List (String × ℕ)) = (D, j, C) :=
      heq
    injection heq2 with h1 hrest
    injection hrest with h2 h3
    subst h1
    subst h2
    subst h3
    refine ⟨by omega, le_refl _, by omega, hkeys, fun _ => by omega,
      fun h => Bool.noConfusion h, ?_, ?_⟩
    · intro k hk hkD
      omega
    · intro _ k hk hkD
      omega
  | succ r ih =>
    intro d counts D j C hkeys heq
    rw [simulate_from_succ] at heq
    have hprize : (trial player rng d).prize ∈ counts.map Prod.fst := by
      rw [hkeys]
      exact prize_for_mem _ _
    have hnodup : (counts.map Prod.fst).Nodup := by
      rw [hkeys]
      decide
    have hsum2 : sumCounts (incr_prize counts (trial player rng d).prize) =
        sumCounts counts + 1 := sumCounts_incr_prize _ _ hnodup hprize
    have hkeys2 : (incr_prize counts (trial player rng d).prize).map Prod.fst =
        init_prize_counts.map Prod.fst := by
      rw [keys_incr_prize, hkeys]
    by_cases hj : (trial player rng d).is_jackpot = true
    · rw [if_pos hj] at heq
      injection heq with h1 hrest
      injection hrest with h2 h3
      subst h1
      subst h2
      subst h3
      refine ⟨by rw [hsum2]; omega, by omega, by omega, hkeys2,
        fun h => Bool.noConfusion h, fun _ => ⟨by omega, ?_⟩, ?_,
        fun h => Bool.noConfusion h⟩
      · have hd : d + 1 - 1 = d := by omega
        rw [hd]
        exact hj
      · intro k hk hkD
        omega
    · rw [if_neg hj] at heq
      have hjf : (trial player rng d).is_jackpot = false :=
        Bool.eq_false_iff.mpr hj
      have h7 : 7 * d + 7 = 7 * (d + 1) := by ring
      rw [h7] at heq
      obtain ⟨hsum, hle, hub, hk2, hfull, hjack, hbefore, hnone⟩ :=
        ih (d + 1) (incr_prize counts (trial player rng d).prize) D j C
          hkeys2 heq
      refine ⟨?_, by omega, by omega, hk2, fun h => by
          have hfl := hfull h
          omega, fun h => ?_, ?_, ?_⟩
      · rw [hsum, hsum2]
        omega
      · obtain ⟨hlt, hjk⟩ := hjack h
        exact ⟨by omega, hjk⟩
      · intro k hk hkD
        rcases eq_or_lt_of_le hk with rfl | hlt
        · exact hjf
        · exact hbefore k (by omega) hkD
      · intro h k hk hkD
        rcases eq_or_lt_of_le hk with rfl | hlt
        · exact hjf
        · exact hnone h k (by omega) hkD

/-- The sum of the freshly initialized tally is zero. -/
lemma sumCounts_init : sumCounts init_prize_counts = 0 := by decide

/-- C3: for every player and cap N at least 1, the summary of
simulate_until_jackpot satisfies: the tally counts sum to the reported
draw count, the draw count is at most N, and when no jackpot was
achieved the draw count equals N exactly. -/
theorem claim_C3_summary_invariants :
    ∀ (player : List ℤ) (N : ℤ) (rng : ℕ → ℕ) (ts te : ℚ), 1 ≤ N →
      sumCounts (simulate_until_jackpot player N rng ts te).prize_counts =
        (simulate_until_jackpot player N rng ts te).draws ∧
      ((simulate_until_jackpot player N rng ts te).draws : ℤ) ≤ N ∧
      ((simulate_until_jackpot player N rng ts te).jackpot_achieved = false →
        ((simulate_until_jackpot player N rng ts te).draws : ℤ) = N) := by
  intro player N rng ts te hN
  obtain ⟨hsum, hle, hub, hkeys, hfull, hjack, hbefore, hnone⟩ :=
    simulate_from_spec player rng N.toNat 0 init_prize_counts
      (simulate_from player rng (7 * 0) init_prize_counts 0 N.toNat).1
      (simulate_from player rng (7 * 0) init_prize_counts 0 N.toNat).2.1
      (simulate_from player rng (7 * 0) init_prize_counts 0 N.toNat).2.2
      rfl rfl
  have hd : (simulate_until_jackpot player N rng ts te).draws =
      (simulate_from player rng (7 * 0) init_prize_counts 0 N.toNat).1 := rfl
  have hc : (simulate_until_jackpot player N rng ts te).prize_counts =
      (simulate_from player rng (7 * 0) init_prize_counts 0 N.toNat).2.2 := rfl
  have hj : (simulate_until_jackpot player N rng ts te).jackpot_achieved =
      (simulate_from player rng (7 * 0) init_prize_counts 0 N.toNat).2.1 := rfl
  rw [hd, hc, hj]
  rw [sumCounts_init] at hsum
  refine ⟨by omega, by omega, ?_⟩
  intro hfalse
  have := hfull hfalse
  omega

/-- Witness for C3 with cap 1 and the all-zero stream (the first draw is
a jackpot for the player [1,2,3,4,5,6]). -/
theorem claim_C3_summary_invariants_witness :
    sumCounts (simulate_until_jackpot [1, 2, 3, 4, 5, 6] 1 (fun _ => 0) 0 0).prize_counts =
      (simulate_until_jackpot [1, 2, 3, 4, 5, 6] 1 (fun _ => 0) 0 0).draws ∧
    ((simulate_until_jackpot [1, 2, 3, 4, 5, 6] 1 (fun _ => 0) 0 0).draws : ℤ) ≤ 1 :=
  ⟨(claim_C3_summary_invariants [1, 2, 3, 4, 5, 6] 1 (fun _ => 0) 0 0 (by decide)).1,
   (claim_C3_summary_invariants [1, 2, 3, 4, 5, 6] 1 (fun _ => 0) 0 0 (by decide)).2.1⟩

/-- C5: the simulation loop increments one tally entry per trial and
terminates at the first jackpot trial: when jackpotAchieved is true the
reported draw count is the 1-based index of the first jackpot trial (the
trial at 0-based index draws-1 is a jackpot and every earlier trial is
not), and when it is false no executed trial is a jackpot. -/
theorem claim_C5_early_termination :
    ∀ (player : List ℤ) (N : ℤ) (rng : ℕ → ℕ) (ts te : ℚ),
      ((simulate_until_jackpot player N rng ts te).jackpot_achieved = true →
        0 < (simulate_until_jackpot player N rng ts te).draws ∧
        (trial player rng
          ((simulate_until_jackpot player N rng ts te).draws - 1)).is_jackpot = true) ∧
      (∀ k, k + 1 < (simulate_until_jackpot player N rng ts te).draws →
        (trial player rng k).is_jackpot = false) ∧
      ((simulate_until_jackpot player N rng ts te).jackpot_achieved = false →
        ∀ k, k < (simulate_until_jackpot player N rng ts te).draws →
          (trial player rng k).is_jackpot = false) := by
  intro player N rng ts te
  obtain ⟨hsum, hle, hub, hkeys, hfull, hjack, hbefore, hnone⟩ :=
    simulate_from_spec player rng N.toNat 0 init_prize_counts
      (simulate_from player rng (7 * 0) init_prize_counts 0 N.toNat).1
      (simulate_from player rng (7 * 0) init_prize_counts 0 N.toNat).2.1
      (simulate_from player rng (7 * 0) init_prize_counts 0 N.toNat).2.2
      rfl rfl
  have hd : (simulate_until_jackpot player N rng ts te).draws =
      (simulate_from player rng (7 * 0) init_prize_counts 0 N.toNat).1 := rfl
  have hj : (simulate_until_jackpot player N rng ts te).jackpot_achieved =
      (simulate_from player rng (7 * 0) init_prize_counts 0 N.toNat).2.1 := rfl
  rw [hd, hj]
  exact ⟨hjack, fun k hk => hbefore k (Nat.zero_le k) hk,
    fun hfalse k hk => hnone hfalse k (Nat.zero_le k) hk⟩

/-- Witness for C5: with the all-zero stream and player [1,2,3,4,5,6]
the first trial is a jackpot, so draws = 1 and trial 0 is the jackpot. -/
theorem claim_C5_early_termination_witness :
    0 < (simulate_until_jackpot [1, 2, 3, 4, 5, 6] 1 (fun _ => 0) 0 0).draws ∧
    (trial [1, 2, 3, 4, 5, 6] (fun _ => 0)
      ((simulate_until_jackpot [1, 2, 3, 4, 5, 6] 1 (fun _ => 0) 0 0).draws - 1)).is_jackpot =
      true :=
  (claim_C5_early_termination [1, 2, 3, 4, 5, 6] 1 (fun _ => 0) 0 0).1 (by decide)

/-- Counterexample to C6: at maxDraws = 0 (which is < 1) the code does
not raise any error; simulate_until_jackpot returns an ordinary summary
with draws = 0 (the loop body never runs and the `draws` variable keeps
its initial value 0). -/
theorem claim_C6_counterexample :
    simulate_until_jackpot [1, 2, 3, 4, 5, 6] 0 (fun _ => 0) 0 0 =
      { draws := 0, jackpot_achieved := false,
        prize_counts := init_prize_counts, simulation_time := 0,
        theoretical_odds := 13983816, years_equivalent := 0 } := by
  show SimSummary.mk 0 false init_prize_counts ((0 : ℚ) - 0) calculate_odds
      (calculate_years 0) = _
  rw [SimSummary.mk.injEq]
  refine ⟨rfl, rfl, rfl, by norm_num, calculate_odds_val, ?_⟩
  show ((round ((0 : ℚ) / 104 * 10) : ℤ) : ℚ) / 10 = 0
  norm_num

/-- C6 as amended: simulate_until_jackpot performs no validation of
maxDraws; whenever maxDraws < 1 it runs zero trials and returns the
summary with draws = 0, jackpotAchieved = false and the all-zero tally
(no error is raised). -/
theorem claim_C6_amended_no_validation :
    ∀ (player : List ℤ) (N : ℤ) (rng : ℕ → ℕ) (ts te : ℚ), N < 1 →
      simulate_until_jackpot player N rng ts te =
        { draws := 0, jackpot_achieved := false,
          prize_counts := init_prize_counts, simulation_time := te - ts,
          theoretical_odds := 13983816, years_equivalent := 0 } := by
  intro player N rng ts te hN
  have ht : N.toNat = 0 := Int.toNat_of_nonpos (by omega)
  have hsim : simulate_from player rng 0 init_prize_counts 0 N.toNat =
      (0, false, init_prize_counts) := by
    rw [ht]
    rfl
  show SimSummary.mk (simulate_from player rng 0 init_prize_counts 0 N.toNat).1
      (simulate_from player rng 0 init_prize_counts 0 N.toNat).2.1
      (simulate_from player rng 0 init_prize_counts 0 N.toNat).2.2
      (te - ts) calculate_odds
      (calculate_years (simulate_from player rng 0 init_prize_counts 0 N.toNat).1) = _
  rw [hsim, SimSummary.mk.injEq]
  refine ⟨rfl, rfl, rfl, rfl, calculate_odds_val, ?_⟩
  show ((round ((0 : ℚ) / 104 * 10) : ℤ) : ℚ) / 10 = 0
  norm_num

/-- Witness for the amended C6 at maxDraws = -3 with distinct clock
readings. -/
theorem claim_C6_amended_no_validation_witness :
    simulate_until_jackpot [1, 2, 3, 4, 5, 6] (-3) (fun _ => 0) 1 5 =
      { draws := 0, jackpot_achieved := false,
        prize_counts := init_prize_counts, simulation_time := 4,
        theoretical_odds := 13983816, years_equivalent := 0 } := by
  rw [claim_C6_amended_no_validation [1, 2, 3, 4, 5, 6] (-3) (fun _ => 0) 1 5
    (by decide)]
  rw [SimSummary.mk.injEq]
  refine ⟨rfl, rfl, rfl, by norm_num, rfl, rfl⟩

/-- Counterexample to C7: two runs of play_toto with the same player
numbers and the same seeded random source but performed at different
wall-clock times give different result dictionaries (the draw_date field
differs). -/
theorem claim_C7_counterexample :
    play_toto "2026-01-01 00:00:00" [1, 2, 3, 4, 5, 6] (fun _ => 0) ≠
    play_toto "2026-01-01 00:00:01" [1, 2, 3, 4, 5, 6] (fun _ => 0) := by
  decide

/-- C7 as amended: with the random source fixed, play_toto and
simulate_until_jackpot are exactly reproducible up to the wall-clock
derived fields (draw_date and simulation_time): for any two runs with
the same player numbers, cap and stream but arbitrary clock readings,
every other field of the results coincides. -/
theorem claim_C7_amended_determinism :
    ∀ (t1 t2 : String) (s1 e1 s2 e2 : ℚ) (p : List ℤ) (N : ℤ)
      (rng : ℕ → ℕ),
      (play_toto t1 p rng).player_numbers = (play_toto t2 p rng).player_numbers ∧
      (play_toto t1 p rng).winning_numbers = (play_toto t2 p rng).winning_numbers ∧
      (play_toto t1 p rng).additional_number =
        (play_toto t2 p rng).additional_number ∧
      (play_toto t1 p rng).result = (play_toto t2 p rng).result ∧
      (simulate_until_jackpot p N rng s1 e1).draws =
        (simulate_until_jackpot p N rng s2 e2).draws ∧
      (simulate_until_jackpot p N rng s1 e1).jackpot_achieved =
        (simulate_until_jackpot p N rng s2 e2).jackpot_achieved ∧
      (simulate_until_jackpot p N rng s1 e1).prize_counts =
        (simulate_until_jackpot p N rng s2 e2).prize_counts ∧
      (simulate_until_jackpot p N rng s1 e1).theoretical_odds =
        (simulate_until_jackpot p N rng s2 e2).theoretical_odds ∧
      (simulate_until_jackpot p N rng s1 e1).years_equivalent =
        (simulate_until_jackpot p N rng s2 e2).years_equivalent :=
  fun _ _ _ _ _ _ _ _ _ => ⟨rfl, rfl, rfl, rfl, rfl, rfl, rfl, rfl, rfl⟩
